import Mathlib

/-!
Verification development for the domain-security-scanner repository.

The definitions below are a shallow embedding of the Go code in
`pkg/scanner` (requests.go, scanner.go, options.go and the zone ingestion
in ScanZone).  Network I/O — the `dns.Client.Exchange` calls and the
TXT-record lookups they feed — is abstracted as oracle functions passed in
as parameters; everything downstream of an exchange is translated
statement by statement from the source.

Strings: the Go code operates on UTF-8 byte strings; we model the
`strings` package helpers (HasPrefix, Contains, Fields, TrimPrefix, Trim,
Join) over `List Char`, which coincides with the byte-level semantics on
the ASCII data involved here.
-/

set_option autoImplicit false

deriving instance DecidableEq for Except

namespace DSS

/-- strings.HasPrefix(s, pre). -/
def goHasPre (s pre : String) : Bool :=
  pre.data.isPrefixOf s.data

/-- Substring search on char lists: true iff `sub` occurs inside the list. -/
def containsSub (sub : List Char) : List Char → Bool
  | [] => sub.isEmpty
  | c :: rest => sub.isPrefixOf (c :: rest) || containsSub sub rest

/-- strings.Contains(s, sub) (for the non-empty patterns used by the code). -/
def goContains (s sub : String) : Bool :=
  containsSub sub.data s.data

/-- Accumulator loop for strings.Fields: split on runs of whitespace. -/
def goFieldsAux : List Char → List Char → List String
  | [], acc => if acc.isEmpty then [] else [String.mk acc.reverse]
  | c :: cs, acc =>
    if c.isWhitespace then
      if acc.isEmpty then goFieldsAux cs []
      else String.mk acc.reverse :: goFieldsAux cs []
    else goFieldsAux cs (c :: acc)

/-- strings.Fields(s): the maximal whitespace-free substrings of s. -/
def goFields (s : String) : List String :=
  goFieldsAux s.data []

/-- strings.TrimPrefix(s, pre). -/
def goTrimPre (s pre : String) : String :=
  if pre.data.isPrefixOf s.data then String.mk (s.data.drop pre.data.length) else s

/-- strings.Trim(s, string(c)): drop leading and trailing occurrences of c. -/
def goTrimChar (s : String) (c : Char) : String :=
  String.mk (((s.data.dropWhile (· = c)).reverse.dropWhile (· = c)).reverse)

/-- Record-type codes from the miekg/dns package (dns.TypeNS etc.). -/
def typeNS : Nat := 2
def typeMX : Nat := 15
def typeTXT : Nat := 16

/-- BIMIPrefix constant of the source ("v=BIMI1;"). -/
def bimiPre : String := "v=BIMI1;"
/-- DKIMPrefix constant of the source ("v=DKIM1;"). -/
def dkimPre : String := "v=DKIM1;"
/-- DMARCPrefix constant of the source ("v=DMARC1;"). -/
def dmarcPre : String := "v=DMARC1;"
/-- SPFPrefix constant of the source ("v=spf1 "). -/
def spfPre : String := "v=spf1 "

/-- Outcome of a getTypeTXT call for one queried name: either the flat list
of TXT string segments the code collects, or the exchange error.  A Go
`(value, err)` pair with non-nil err always carries the zero value here,
so `Except` is a faithful encoding. -/
abbrev TxtOracle := String → Except String (List String)

/-- The shared loop body of getTypeBIMI / getTypeDKIM / getTypeDMARC: scan
the TXT segments for the first one carrying the record prefix and return
the concatenation of the segments from that index on
(`strings.Join(txtRecords[index:], "")` in the source). -/
def findPrefixJoin (pre : String) : List String → Option String
  | [] => none
  | t :: rest =>
    if goHasPre t pre then some (String.join (t :: rest))
    else findPrefixJoin pre rest

/-- The candidate-name loop shared by getTypeBIMI / getTypeDKIM /
getTypeDMARC in pkg/scanner/requests.go: for each queried name, an
exchange error aborts the whole loop with ("", nil); a prefix match
returns the joined record; otherwise the next candidate is tried. -/
def lookupJoinList (txt : TxtOracle) (pre : String) : List String → Except String String
  | [] => .ok ""
  | dname :: rest =>
    match txt dname with
    | .error _ => .ok ""
    | .ok recs =>
      match findPrefixJoin pre recs with
      | some v => .ok v
      | none => lookupJoinList txt pre rest

/-- getTypeBIMI (pkg/scanner/requests.go): tries "default._bimi."+domain
then the domain itself. -/
def getTypeBIMI (txt : TxtOracle) (domain : String) : Except String String :=
  lookupJoinList txt bimiPre ["default._bimi." ++ domain, domain]

/-- getTypeDMARC (pkg/scanner/requests.go): tries "_dmarc."+domain then the
domain itself. -/
def getTypeDMARC (txt : TxtOracle) (domain : String) : Except String String :=
  lookupJoinList txt dmarcPre ["_dmarc." ++ domain, domain]

/-- knownDkimSelectors (pkg/scanner/requests.go). -/
def knownDkimSelectors : List String :=
  ["x", "google", "selector1", "selector2", "k1", "mandrill",
   "everlytickey1", "everlytickey2", "dkim", "mxvault"]

/-- The query names getTypeDKIM iterates over: caller-supplied selectors
followed by the built-in list, each wrapped as selector+"._domainkey."+domain. -/
def dkimCandidates (sels : List String) (domain : String) : List String :=
  (sels ++ knownDkimSelectors).map (fun sel => sel ++ "._domainkey." ++ domain)

/-- getTypeDKIM (pkg/scanner/requests.go):
selectors := append(s.DKIMSelectors, knownDkimSelectors...), then the
shared candidate loop. -/
def getTypeDKIM (txt : TxtOracle) (sels : List String) (domain : String) :
    Except String String :=
  lookupJoinList txt dkimPre (dkimCandidates sels domain)

/-- One pass of getTypeSPF over the TXT segments of the queried domain:
either a final value, or an instruction to recurse into a redirect target. -/
inductive SpfStep where
  | done (v : String)
  | redirect (target : String)
deriving DecidableEq

/-- The record loop of getTypeSPF (pkg/scanner/requests.go): the first
segment carrying the SPF prefix is returned as-is when it has no
"redirect=" substring; otherwise the first whitespace-separated field
containing "redirect=" names the recursion target. -/
def spfScan : List String → SpfStep
  | [] => .done ""
  | t :: rest =>
    if goHasPre t spfPre then
      if goContains t "redirect=" then
        match (goFields t).find? (fun part => goContains part "redirect=") with
        | some part => .redirect (goTrimPre part "redirect=")
        | none => spfScan rest
      else .done t
    else spfScan rest

/-- getTypeSPF (pkg/scanner/requests.go).  The Go recursion through
redirect targets has no depth guard; the embedding adds explicit fuel,
consumed only on redirects, so every theorem below supplies enough fuel
for the recursion it exercises. -/
def getTypeSPF (txt : TxtOracle) : Nat → String → Except String String
  | 0, _ => .error "spf redirect recursion fuel exhausted"
  | fuel + 1, domain =>
    match txt domain with
    | .error e => .error e
    | .ok recs =>
      match spfScan recs with
      | .done v => .ok v
      | .redirect target => getTypeSPF txt fuel target

/-- Result (scanner.go): the record fields filled for one scanned domain.
The Elapsed/duration bookkeeping of the source carries no information the
claims touch and is omitted. -/
structure Result where
  Domain : String
  Error : String
  BIMI : String
  DKIM : String
  DMARC : String
  SPF : String
  MX : List String
  NS : List String
deriving DecidableEq

/-- Value part of a Go (string, error) return: the zero value on error. -/
def exceptStr : Except String String → String
  | .ok v => v
  | .error _ => ""

/-- Value part of a Go ([]string, error) return: nil on error. -/
def exceptList : Except String (List String) → List String
  | .ok v => v
  | .error _ => []

/-- True iff the Go error of the call was non-nil. -/
def isErr {α : Type} : Except String α → Bool
  | .ok _ => false
  | .error _ => true

/-- The DNS environment a scan runs against, one oracle per kind of call
the Scan body makes:
* `records rtype name` — the (*Scanner).getDNSRecords helper used for the
  NS validity check and the MX lookup.  Modelled from the spec: that
  helper's body is not under src (only its call sites in Scan are); per
  §4.3 MX/NS are a direct passthrough of the corresponding resource
  records, so it is an exchange returning the record strings or an error.
* `rawTXT name` — getDNSAnswers(name, dns.TypeTXT): the raw answer list of
  the fallback TXT existence check (each answer abstracted to a string).
* `txt name` — getTypeTXT(name): the flat TXT segment list the derived
  resolvers consume. -/
structure DnsEnv where
  records : Nat → String → Except String (List String)
  rawTXT : String → Except String (List String)
  txt : TxtOracle

/-- The per-domain body of the closure Scan submits to the worker pool
(scanner.go lines 139-220), minus the cache interaction (modelled
separately): NS validity check, TXT fallback, then the five-way record
fan-out.  The Go fan-out goroutines assign their errors to one shared
`err` variable that is never read after the join, so only the value parts
reach the Result; the embedding mirrors that by dropping the error
components. -/
def scanDomain (env : DnsEnv) (sels : List String) (fuel : Nat) (domain : String) :
    Result :=
  let nsAns := env.records typeNS domain
  let nsList := exceptList nsAns
  if (isErr nsAns || nsList.isEmpty)
      && (isErr (env.rawTXT domain) || (exceptList (env.rawTXT domain)).isEmpty) then
    { Domain := domain, Error := "invalid domain name",
      BIMI := "", DKIM := "", DMARC := "", SPF := "", MX := [], NS := [] }
  else
    { Domain := domain
      Error := ""
      BIMI := exceptStr (getTypeBIMI env.txt domain)
      DKIM := exceptStr (getTypeDKIM env.txt sels domain)
      DMARC := exceptStr (getTypeDMARC env.txt domain)
      SPF := exceptStr (getTypeSPF env.txt fuel domain)
      MX := exceptList (env.records typeMX domain)
      NS := nsList }

/-- Scan (scanner.go lines 112-229) on a live scanner: reject any empty
domain string, reject an empty batch, then resolve each domain — from the
cache when it holds the domain, freshly otherwise.  The concurrent
append order is modelled as input order, which the claims do not
distinguish. -/
def Scan (cache : String → Option Result) (env : DnsEnv) (sels : List String)
    (fuel : Nat) (domains : List String) : Except String (List Result) :=
  if domains.any (fun d => d = "") then .error "empty domain"
  else if domains.isEmpty then .error "no domains to scan"
  else .ok (domains.map fun d =>
    match cache d with
    | some r => r
    | none => scanDomain env sels fuel d)

/-- One parsed token of the zone input: its owner name and record type. -/
structure ZoneTok where
  name : String
  rrtype : Nat
deriving DecidableEq

/-- The domain-collection loop of ScanZone (scanner.go lines 241-253):
skip NS records, trim surrounding dots, skip names without a dot. -/
def zoneEligible (toks : List ZoneTok) : List String :=
  toks.filterMap fun tok =>
    if tok.rrtype = typeNS then none
    else
      let domain := goTrimChar tok.name '.'
      if goContains domain "." then some domain else none

/-- ScanZone (scanner.go lines 231-256): collect eligible domains from the
parsed zone, then delegate to Scan. -/
def ScanZone (cache : String → Option Result) (env : DnsEnv) (sels : List String)
    (fuel : Nat) (toks : List ZoneTok) : Except String (List Result) :=
  Scan cache env sels fuel (zoneEligible toks)

/-- A DNS response as getDNSAnswers sees it: the truncation flag of the
header and the answer section (answers abstracted to strings). -/
structure DnsMsg where
  truncated : Bool
  answer : List String
deriving DecidableEq

/-- getDNSAnswers (pkg/scanner/requests.go lines 272-294).  `exch attempt
buffer` is the dns.Client.Exchange oracle: attempt 0 is the initial
exchange with the configured buffer, attempt 1 the retry re-sent with a
4096 EDNS0 buffer.  The retry fires exactly when the first response is
marked truncated and the configured buffer is ≤ 4096, and its answer or
error is returned as-is. -/
def getDNSAnswers (exch : Nat → Nat → Except String DnsMsg) (dnsBuffer : Nat) :
    Except String (List String) :=
  match exch 0 dnsBuffer with
  | .error e => .error e
  | .ok m =>
    if m.truncated && decide (dnsBuffer ≤ 4096) then
      match exch 1 4096 with
      | .error e => .error e
      | .ok m2 => .ok m2.answer
    else .ok m.answer

/-- Instrumentation for getDNSAnswers: how many retry exchanges the call
performs after the initial one (0 or 1 by construction). -/
def dnsRetries (exch : Nat → Nat → Except String DnsMsg) (dnsBuffer : Nat) : Nat :=
  match exch 0 dnsBuffer with
  | .error _ => 0
  | .ok m => if m.truncated && decide (dnsBuffer ≤ 4096) then 1 else 0

/-- The configuration state New assembles (scanner.go lines 75-109);
warnings records the messages the option functions log.  dnsBuffer is a
Go uint16, so callers supply values below 65536. -/
structure ScannerCfg where
  dnsBuffer : Nat
  cacheDuration : Int
  dkimSelectors : List String
  nameservers : List String
  poolSize : Nat
  warnings : List String
deriving DecidableEq

/-- A functional option of the source (`Option func(*Scanner) error`). -/
abbrev OptionFn := ScannerCfg → Except String ScannerCfg

/-- WithDNSBuffer (options.go lines 223-233): an oversized value only logs
a warning; the buffer is stored unconditionally and the option never
fails. -/
def WithDNSBuffer (bufferSize : Nat) : OptionFn := fun s =>
  let s := if bufferSize > 4096
    then { s with warnings := s.warnings ++ ["buffer size should not be larger than 4096"] }
    else s
  .ok { s with dnsBuffer := bufferSize }

/-- WithCacheDuration (options.go lines 176-182): stores the duration
(nanoseconds) unconditionally. -/
def WithCacheDuration (duration : Int) : OptionFn := fun s =>
  .ok { s with cacheDuration := duration }

/-- The option-application loop of New: the first failing option aborts
construction with the wrapped error. -/
def applyOpts : List OptionFn → ScannerCfg → Except String ScannerCfg
  | [], s => .ok s
  | o :: os, s =>
    match o s with
    | .error e => .error ("apply option: " ++ e)
    | .ok s2 => applyOpts os s2

/-- New (scanner.go lines 75-109): reject a non-positive timeout, start
from the defaults (buffer 4096, public nameservers, poolSize = NumCPU),
then fold the options. -/
def ScannerNew (numCPU : Nat) (timeout : Int) (opts : List OptionFn) :
    Except String ScannerCfg :=
  if timeout ≤ 0 then .error "timeout must be greater than 0"
  else applyOpts opts
    { dnsBuffer := 4096
      cacheDuration := 0
      dkimSelectors := []
      nameservers := ["8.8.8.8:53", "8.8.4.4:53", "1.1.1.1:53"]
      poolSize := numCPU
      warnings := [] }

/-- The dnsBuffer a freshly constructed scanner ends up with, when
construction succeeds. -/
def newBufferResult (bufferSize : Nat) : Option Nat :=
  match ScannerNew 4 1 [WithDNSBuffer bufferSize] with
  | .ok s => some s.dnsBuffer
  | .error _ => none

/-- One entry of the patrickmn/go-cache store New wires in: the value and
its absolute expiration time in nanoseconds (0 = no expiry). -/
structure CacheItem where
  value : Result
  expiration : Int
deriving DecidableEq

/-- The go-cache state: the default expiration fixed at New and the item
map (as an association list). -/
structure GoCache where
  defaultExpiration : Int
  items : List (String × CacheItem)
deriving DecidableEq

/-- cache.New(de, cleanupInterval) of go-cache: a default expiration of 0
is mapped to NoExpiration (-1); the cleanup interval only drives the
background sweeper and is dropped. -/
def goCacheNew (de : Int) : GoCache :=
  { defaultExpiration := if de = 0 then -1 else de, items := [] }

/-- Cache.Set of go-cache: duration 0 falls back to the default
expiration; a positive duration yields expiry now+d, otherwise no expiry. -/
def goCacheSet (c : GoCache) (now : Int) (k : String) (v : Result) (d : Int) :
    GoCache :=
  let d := if d = 0 then c.defaultExpiration else d
  let e := if d > 0 then now + d else 0
  { c with items := (k, ⟨v, e⟩) :: c.items.filter (fun it => it.1 ≠ k) }

/-- Cache.Get of go-cache: a stored item is a miss once a positive
expiration lies in the past. -/
def goCacheGet (c : GoCache) (now : Int) (k : String) : Option Result :=
  match c.items.find? (fun it => it.1 == k) with
  | none => none
  | some (_, item) =>
    if item.expiration > 0 && now > item.expiration then none else some item.value

/-- Three minutes in nanoseconds: the TTL Scan hardcodes when it fills the
cache (scanner.go line 159), independent of the configured cacheDuration. -/
def scanCacheTTL : Int := 180000000000

/-- The cache interaction of the Scan worker for one domain (scanner.go
lines 144-161): a hit returns the stored Result; a miss resolves freshly
and the deferred fill stores the outcome with the hardcoded 3-minute TTL. -/
def scanCached (c : GoCache) (now : Int) (env : DnsEnv) (sels : List String)
    (fuel : Nat) (domain : String) : Result × GoCache :=
  match goCacheGet c now domain with
  | some r => (r, c)
  | none =>
    let r := scanDomain env sels fuel domain
    (r, goCacheSet c now domain r scanCacheTTL)

/-- The Result the invalid-domain short circuit of Scan constructs. -/
def invalidResult (d : String) : Result :=
  { Domain := d, Error := "invalid domain name",
    BIMI := "", DKIM := "", DMARC := "", SPF := "", MX := [], NS := [] }

/-- All record fields of a Result are empty. -/
def recordsEmpty (r : Result) : Prop :=
  r.BIMI = "" ∧ r.DKIM = "" ∧ r.DMARC = "" ∧ r.SPF = "" ∧ r.MX = [] ∧ r.NS = []

/-- Instrumented variant of the candidate loop: also returns the list of
names actually queried, in query order. -/
def lookupTrace (txt : TxtOracle) (pre : String) :
    List String → Except String String × List String
  | [] => (.ok "", [])
  | dname :: rest =>
    match txt dname with
    | .error _ => (.ok "", [dname])
    | .ok recs =>
      match findPrefixJoin pre recs with
      | some v => (.ok v, [dname])
      | none =>
        let t := lookupTrace txt pre rest
        (t.1, dname :: t.2)

theorem lookupTrace_fst (txt : TxtOracle) (pre : String) (names : List String) :
    (lookupTrace txt pre names).1 = lookupJoinList txt pre names := by
  induction names with
  | nil => rfl
  | cons dname rest ih =>
    simp only [lookupTrace, lookupJoinList]
    cases htxt : txt dname with
    | error e => simp [htxt]
    | ok recs =>
      cases hf : findPrefixJoin pre recs with
      | some v => simp [htxt, hf]
      | none => simp [htxt, hf, ih]

theorem findPrefixJoin_skip (pre : String) (before l : List String)
    (h : ∀ t ∈ before, goHasPre t pre = false) :
    findPrefixJoin pre (before ++ l) = findPrefixJoin pre l := by
  induction before with
  | nil => rfl
  | cons b bs ih =>
    have hb : goHasPre b pre = false := h b (List.mem_cons_self b bs)
    simp only [List.cons_append, findPrefixJoin, hb, Bool.false_eq_true, if_false]
    exact ih (fun t ht => h t (List.mem_cons_of_mem _ ht))

theorem findPrefixJoin_found (pre si : String) (before after : List String)
    (h : ∀ t ∈ before, goHasPre t pre = false) (hsi : goHasPre si pre = true) :
    findPrefixJoin pre (before ++ si :: after) = some (String.join (si :: after)) := by
  rw [findPrefixJoin_skip pre before (si :: after) h]
  simp [findPrefixJoin, hsi]

theorem spfScan_skip (before l : List String)
    (h : ∀ t ∈ before, goHasPre t spfPre = false) :
    spfScan (before ++ l) = spfScan l := by
  induction before with
  | nil => rfl
  | cons b bs ih =>
    have hb : goHasPre b spfPre = false := h b (List.mem_cons_self b bs)
    simp only [List.cons_append, spfScan, hb, Bool.false_eq_true, if_false]
    exact ih (fun t ht => h t (List.mem_cons_of_mem _ ht))

theorem lookupTrace_found (txt : TxtOracle) (pre : String) (before after : List String)
    (c v : String)
    (hbefore : ∀ nm ∈ before, ∃ recs, txt nm = .ok recs ∧ findPrefixJoin pre recs = none)
    (hc : ∃ recs, txt c = .ok recs ∧ findPrefixJoin pre recs = some v) :
    lookupTrace txt pre (before ++ c :: after) = (.ok v, before ++ [c]) := by
  induction before with
  | nil =>
    obtain ⟨recs, hr, hf⟩ := hc
    simp [lookupTrace, hr, hf]
  | cons b bs ih =>
    obtain ⟨recs, hr, hf⟩ := hbefore b (List.mem_cons_self b bs)
    have ihr := ih (fun nm hnm => hbefore nm (List.mem_cons_of_mem _ hnm))
    simp [lookupTrace, hr, hf, ihr]

theorem scanDomain_invalid (env : DnsEnv) (sels : List String) (fuel : Nat) (d : String)
    (h1 : isErr (env.records typeNS d) = true ∨ exceptList (env.records typeNS d) = [])
    (h2 : isErr (env.rawTXT d) = true ∨ exceptList (env.rawTXT d) = []) :
    scanDomain env sels fuel d = invalidResult d := by
  have hb1 : (isErr (env.records typeNS d)
      || (exceptList (env.records typeNS d)).isEmpty) = true := by
    rcases h1 with h | h <;> simp [h]
  have hb2 : (isErr (env.rawTXT d) || (exceptList (env.rawTXT d)).isEmpty) = true := by
    rcases h2 with h | h <;> simp [h]
  simp [scanDomain, hb1, hb2, invalidResult]

theorem scanDomain_shape (env : DnsEnv) (sels : List String) (fuel : Nat) (d : String) :
    (scanDomain env sels fuel d).Error = "" ∨
    scanDomain env sels fuel d = invalidResult d := by
  simp only [scanDomain]
  split
  · right; rfl
  · left; rfl

/-- Exchange oracle whose responses are always marked truncated. -/
def exchTrunc : Nat → Nat → Except String DnsMsg :=
  fun _ _ => .ok { truncated := true, answer := ["truncated-answer"] }

/-- Exchange oracle: the initial exchange is truncated, the retry is not. -/
def exchRetry : Nat → Nat → Except String DnsMsg :=
  fun attempt _ =>
    if attempt = 0 then .ok { truncated := true, answer := ["first-answer"] }
    else .ok { truncated := false, answer := ["retry-answer"] }

/-- Environment where the NS lookup succeeds but the MX exchange fails. -/
def envMxErr : DnsEnv :=
  { records := fun rtype _ =>
      if rtype = typeNS then .ok ["ns1.example.net."]
      else .error "read udp: i/o timeout"
    rawTXT := fun _ => .ok []
    txt := fun _ => .ok [] }

/-- Environment where every DNS exchange fails. -/
def envDown : DnsEnv :=
  { records := fun _ _ => .error "nxdomain"
    rawTXT := fun _ => .error "nxdomain"
    txt := fun _ => .error "nxdomain" }

/-- Environment answering the NS check and nothing else. -/
def envNsOnly : DnsEnv :=
  { records := fun rtype _ => if rtype = typeNS then .ok ["ns1.example."] else .ok []
    rawTXT := fun _ => .ok []
    txt := fun _ => .ok [] }

/-- TXT oracle returning an SPF record split into two string segments. -/
def spfSplitTxt : TxtOracle := fun d =>
  if d = "c5.example" then .ok ["v=spf1 include:a.example ", "~all"] else .ok []

/-- TXT oracle for a DMARC record split across segments. -/
def dmarcSplitTxt : TxtOracle := fun nm =>
  if nm = "_dmarc.w5.example" then .ok ["skip-me", "v=DMARC1; p=rej", "ect;"]
  else .ok []

/-- TXT oracle with an SPF redirect whose record also ends in "-all". -/
def spfRedirectTxt : TxtOracle := fun d =>
  if d = "c6.example" then .ok ["v=spf1 redirect=target.example -all"]
  else if d = "target.example" then .ok ["v=spf1 mx -all"]
  else .ok []

/-- TXT oracle where every lookup fails with a network error. -/
def errTxt : TxtOracle := fun _ => .error "network unreachable"

/-- TXT oracle where selector x carries no DKIM record and selector google
does. -/
def dkimWitTxt : TxtOracle := fun nm =>
  if nm = "x._domainkey.d.example" then .ok ["unrelated-txt"]
  else if nm = "google._domainkey.d.example" then .ok ["v=DKIM1; k=rsa; p=TEST"]
  else .ok []

/-- The DKIM candidate names after the matching one in the witness run. -/
def dkimRestCands : List String :=
  ["selector1", "selector2", "k1", "mandrill", "everlytickey1",
   "everlytickey2", "dkim", "mxvault"].map (fun sel => sel ++ "._domainkey.d.example")

/-- Zone tokens with an NS apex and a dotless anchor name only. -/
def zoneNoEligible : List ZoneTok :=
  [{ name := "example.com.", rrtype := typeNS }, { name := "com.", rrtype := 1 }]

/-- C1 counterexample: the claim says construction fails for any buffer
size above 4096 and never succeeds with the oversized value in effect;
the code (WithDNSBuffer only logs a warning) constructs successfully with
dnsBuffer = 5000. -/
theorem buffer_option_counterexample : newBufferResult 5000 = some 5000 := by decide

/-- C1 (amended): an oversized DNS buffer does not fail construction; the
option appends a warning and stores the value, and New returns the
scanner with the oversized buffer in effect. -/
theorem buffer_option_warns_only (b numCPU : Nat) (t : Int)
    (ht : 0 < t) (hb : 4096 < b) :
    ScannerNew numCPU t [WithDNSBuffer b] =
      .ok { dnsBuffer := b
            cacheDuration := 0
            dkimSelectors := []
            nameservers := ["8.8.8.8:53", "8.8.4.4:53", "1.1.1.1:53"]
            poolSize := numCPU
            warnings := ["buffer size should not be larger than 4096"] } := by
  have hne : ¬ t ≤ 0 := by omega
  simp [ScannerNew, applyOpts, WithDNSBuffer, hne, hb]

/-- Witness for buffer_option_warns_only at buffer 5000. -/
theorem buffer_option_warns_only_witness :
    ScannerNew 4 1 [WithDNSBuffer 5000] =
      .ok { dnsBuffer := 5000
            cacheDuration := 0
            dkimSelectors := []
            nameservers := ["8.8.8.8:53", "8.8.4.4:53", "1.1.1.1:53"]
            poolSize := 4
            warnings := ["buffer size should not be larger than 4096"] } :=
  buffer_option_warns_only 5000 4 1 (by decide) (by decide)

/-- C4 counterexample: the claim says a truncated response at a configured
buffer of exactly 4096 causes zero retries; the code's retry condition is
dnsBuffer ≤ 4096, so one retry is performed. -/
theorem dns_retry_at_4096_counterexample :
    dnsRetries exchTrunc 4096 = 1 ∧ ¬ dnsRetries exchTrunc 4096 = 0 := by decide

/-- C4 (amended): for a truncated response the retry fires iff the
configured buffer is at most 4096 (so also at exactly 4096): in that case
exactly one retry is sent with a 4096 buffer and its answer or error is
returned as-is; above 4096 no retry happens and the truncated answer is
returned. -/
theorem dns_truncation_retry (exch : Nat → Nat → Except String DnsMsg)
    (b : Nat) (m : DnsMsg) (h0 : exch 0 b = .ok m) (ht : m.truncated = true) :
    (b ≤ 4096 →
      dnsRetries exch b = 1 ∧
      getDNSAnswers exch b =
        (match exch 1 4096 with
         | .error e => .error e
         | .ok m2 => .ok m2.answer))
    ∧ (4096 < b → dnsRetries exch b = 0 ∧ getDNSAnswers exch b = .ok m.answer) := by
  constructor
  · intro hb
    constructor
    · simp [dnsRetries, h0, ht, hb]
    · simp [getDNSAnswers, h0, ht, hb]
  · intro hb
    have hb2 : ¬ b ≤ 4096 := by omega
    constructor
    · simp [dnsRetries, h0, ht, hb2]
    · simp [getDNSAnswers, h0, ht, hb2]

/-- Witness for dns_truncation_retry: a truncated response at buffer 1024
is retried once and the retry's answer is what the caller receives. -/
theorem dns_truncation_retry_witness :
    dnsRetries exchRetry 1024 = 1 ∧
    getDNSAnswers exchRetry 1024 =
      (match exchRetry 1 4096 with
       | .error e => .error e
       | .ok m2 => .ok m2.answer) :=
  (dns_truncation_retry exchRetry 1024
      { truncated := true, answer := ["first-answer"] } rfl rfl).1 (by decide)

/-- C2: evaluation at the failing input.  The MX exchange fails, yet the
Result carries an empty Error (the goroutines assign their errors to a
shared variable that is never read after the join), contradicting the
claim that the failure is recorded in Result.Error. -/
theorem scan_mx_error_not_recorded :
    scanDomain envMxErr [] 1 "mx-error.example" =
      { Domain := "mx-error.example", Error := "", BIMI := "", DKIM := "",
        DMARC := "", SPF := "", MX := [], NS := ["ns1.example.net."] } := by decide

/-- C3: a domain for which neither the NS check nor the fallback TXT check
yields an answer gets exactly the Result with Error = "invalid domain
name" and every record field empty; and every Result Scan produces with a
non-empty Error has all record fields empty (given the cache only holds
Results with that property, which is all Scan ever stores). -/
theorem scan_invalid_domain_and_error_invariant :
    (∀ (env : DnsEnv) (sels : List String) (fuel : Nat) (d : String),
      isErr (env.records typeNS d) = true ∨ exceptList (env.records typeNS d) = [] →
      isErr (env.rawTXT d) = true ∨ exceptList (env.rawTXT d) = [] →
      scanDomain env sels fuel d = invalidResult d)
    ∧ (∀ (cache : String → Option Result) (env : DnsEnv) (sels : List String)
        (fuel : Nat) (domains : List String) (out : List Result) (r : Result),
      (∀ d rc, cache d = some rc → rc.Error ≠ "" → recordsEmpty rc) →
      Scan cache env sels fuel domains = .ok out → r ∈ out → r.Error ≠ "" →
      recordsEmpty r) := by
  constructor
  · exact scanDomain_invalid
  · intro cache env sels fuel domains out r hcache hscan hr he
    simp only [Scan] at hscan
    split at hscan
    · exact Except.noConfusion hscan
    · split at hscan
      · exact Except.noConfusion hscan
      · injection hscan with hout
        subst hout
        rw [List.mem_map] at hr
        obtain ⟨d, _, hfd⟩ := hr
        cases hcd : cache d with
        | some rc =>
          rw [hcd] at hfd
          simp only at hfd
          subst hfd
          exact hcache d rc hcd he
        | none =>
          rw [hcd] at hfd
          simp only at hfd
          subst hfd
          rcases scanDomain_shape env sels fuel d with herr | hinv
          · exact absurd herr he
          · rw [hinv]
            simp [invalidResult, recordsEmpty]

/-- Witness for scan_invalid_domain_and_error_invariant: a dead domain
produces the invalid-domain Result, and that Result (a member of the
batch Scan returns) has all record fields empty. -/
theorem scan_invalid_domain_witness :
    scanDomain envDown [] 1 "bad.example" = invalidResult "bad.example" ∧
    recordsEmpty (invalidResult "bad.example") :=
  ⟨scan_invalid_domain_and_error_invariant.1 envDown [] 1 "bad.example"
      (Or.inl (by decide)) (Or.inl (by decide)),
   scan_invalid_domain_and_error_invariant.2 (fun _ => none) envDown [] 1
      ["bad.example"] [invalidResult "bad.example"] (invalidResult "bad.example")
      (fun _ _ h => nomatch h) (by decide) (by decide) (by decide)⟩

/-- C5 counterexample: the claim asserts segment reassembly for all four
derived records, but getTypeSPF returns only the matching segment itself:
for segments ["v=spf1 include:a.example ", "~all"] the resolved SPF value
is the first segment, not the concatenation. -/
theorem spf_no_reassembly_counterexample :
    getTypeSPF spfSplitTxt 1 "c5.example" = .ok "v=spf1 include:a.example " ∧
    ¬ getTypeSPF spfSplitTxt 1 "c5.example" =
        .ok (String.join ["v=spf1 include:a.example ", "~all"]) := by decide

/-- C5 (amended): BIMI, DKIM and DMARC resolve to the separator-free
concatenation of the segments from the first prefix-carrying one to the
end; SPF returns the first prefix-carrying segment alone (when it holds
no redirect). -/
theorem txt_reassembly_amended :
    (∀ (pre si : String) (before after : List String),
      (∀ t ∈ before, goHasPre t pre = false) → goHasPre si pre = true →
      findPrefixJoin pre (before ++ si :: after) = some (String.join (si :: after)))
    ∧ (∀ (txt : TxtOracle) (d si : String) (before after : List String),
      txt ("_dmarc." ++ d) = .ok (before ++ si :: after) →
      (∀ t ∈ before, goHasPre t dmarcPre = false) → goHasPre si dmarcPre = true →
      getTypeDMARC txt d = .ok (String.join (si :: after)))
    ∧ (∀ (txt : TxtOracle) (d si : String) (before after : List String),
      txt ("default._bimi." ++ d) = .ok (before ++ si :: after) →
      (∀ t ∈ before, goHasPre t bimiPre = false) → goHasPre si bimiPre = true →
      getTypeBIMI txt d = .ok (String.join (si :: after)))
    ∧ (∀ (txt : TxtOracle) (sel : String) (sels : List String) (d si : String)
        (before after : List String),
      txt (sel ++ "._domainkey." ++ d) = .ok (before ++ si :: after) →
      (∀ t ∈ before, goHasPre t dkimPre = false) → goHasPre si dkimPre = true →
      getTypeDKIM txt (sel :: sels) d = .ok (String.join (si :: after)))
    ∧ (∀ (txt : TxtOracle) (d si : String) (before after : List String) (fuel : Nat),
      txt d = .ok (before ++ si :: after) →
      (∀ t ∈ before, goHasPre t spfPre = false) → goHasPre si spfPre = true →
      goContains si "redirect=" = false →
      getTypeSPF txt (fuel + 1) d = .ok si) := by
  refine ⟨findPrefixJoin_found, ?_, ?_, ?_, ?_⟩
  · intro txt d si before after hrec hbefore hsi
    simp [getTypeDMARC, lookupJoinList, hrec,
      findPrefixJoin_found dmarcPre si before after hbefore hsi]
  · intro txt d si before after hrec hbefore hsi
    simp [getTypeBIMI, lookupJoinList, hrec,
      findPrefixJoin_found bimiPre si before after hbefore hsi]
  · intro txt sel sels d si before after hrec hbefore hsi
    simp [getTypeDKIM, dkimCandidates, lookupJoinList, hrec,
      findPrefixJoin_found dkimPre si before after hbefore hsi]
  · intro txt d si before after fuel hrec hbefore hsi hnored
    have hskip := spfScan_skip before (si :: after) hbefore
    simp [getTypeSPF, hrec, hskip, spfScan, hsi, hnored]

/-- Witness for txt_reassembly_amended: a split DMARC record reassembles
to the concatenation, a split SPF record resolves to its first segment. -/
theorem txt_reassembly_amended_witness :
    getTypeDMARC dmarcSplitTxt "w5.example" =
      .ok (String.join ["v=DMARC1; p=rej", "ect;"]) ∧
    getTypeSPF spfSplitTxt 1 "c5.example" = .ok "v=spf1 include:a.example " :=
  ⟨txt_reassembly_amended.2.1 dmarcSplitTxt "w5.example" "v=DMARC1; p=rej"
      ["skip-me"] ["ect;"] (by decide) (by decide) (by decide),
   txt_reassembly_amended.2.2.2.2 spfSplitTxt "c5.example"
      "v=spf1 include:a.example " [] ["~all"] 0 (by decide) (by decide)
      (by decide) (by decide)⟩

/-- C6 counterexample: the claim says a record with a terminating all
mechanism is returned as-is without following the redirect; the code has
no all-mechanism check at all, so "v=spf1 redirect=target.example -all"
is not returned as-is — the redirect target's record is. -/
theorem spf_redirect_all_counterexample :
    getTypeSPF spfRedirectTxt 2 "c6.example" = .ok "v=spf1 mx -all" ∧
    ¬ getTypeSPF spfRedirectTxt 2 "c6.example" =
        .ok "v=spf1 redirect=target.example -all" := by decide

/-- C6 (amended): whenever the matching SPF record contains the substring
"redirect=", the resolver recurses into the target taken from the first
whitespace-separated field containing "redirect=", unconditionally — the
presence of an all mechanism is never consulted. -/
theorem spf_redirect_always_followed (txt : TxtOracle) (d r part : String)
    (fuel : Nat) (hrec : txt d = .ok [r]) (hpre : goHasPre r spfPre = true)
    (hred : goContains r "redirect=" = true)
    (hfind : (goFields r).find? (fun p => goContains p "redirect=") = some part) :
    getTypeSPF txt (fuel + 1) d = getTypeSPF txt fuel (goTrimPre part "redirect=") := by
  simp [getTypeSPF, hrec, spfScan, hpre, hred, hfind]

/-- Witness for spf_redirect_always_followed: the redirect in a record
ending in "-all" is still followed. -/
theorem spf_redirect_always_followed_witness :
    getTypeSPF spfRedirectTxt 2 "c6.example" =
      getTypeSPF spfRedirectTxt 1 (goTrimPre "redirect=target.example" "redirect=") :=
  spf_redirect_always_followed spfRedirectTxt "c6.example"
    "v=spf1 redirect=target.example -all" "redirect=target.example" 1
    (by decide) (by decide) (by decide) (by decide)

/-- C7 counterexample: the claim says every one of the four derived
resolvers returns the empty string and no error on an exchange failure;
getTypeSPF propagates the exchange error instead. -/
theorem spf_error_propagates_counterexample :
    getTypeSPF errTxt 1 "c7.example" = .error "network unreachable" ∧
    ¬ getTypeSPF errTxt 1 "c7.example" = .ok "" := by decide

/-- C7 (amended): on an exchange error BIMI, DKIM and DMARC return the
empty string with a nil error; SPF returns the empty string together with
the error.  Scan discards the fan-out errors either way, so a domain that
passed the validity check always ends with an empty Result.Error and
scanning continues. -/
theorem soft_lookup_error_policy :
    (∀ (txt : TxtOracle) (d e : String),
      txt ("default._bimi." ++ d) = .error e → getTypeBIMI txt d = .ok "")
    ∧ (∀ (txt : TxtOracle) (d e : String),
      txt ("_dmarc." ++ d) = .error e → getTypeDMARC txt d = .ok "")
    ∧ (∀ (txt : TxtOracle) (sel : String) (sels : List String) (d e : String),
      txt (sel ++ "._domainkey." ++ d) = .error e →
      getTypeDKIM txt (sel :: sels) d = .ok "")
    ∧ (∀ (txt : TxtOracle) (d e : String) (fuel : Nat),
      txt d = .error e → getTypeSPF txt (fuel + 1) d = .error e)
    ∧ (∀ (env : DnsEnv) (sels : List String) (fuel : Nat) (d : String)
        (recs : List String),
      env.records typeNS d = .ok recs → recs ≠ [] →
      (scanDomain env sels fuel d).Error = "") := by
  refine ⟨?_, ?_, ?_, ?_, ?_⟩
  · intro txt d e h
    simp [getTypeBIMI, lookupJoinList, h]
  · intro txt d e h
    simp [getTypeDMARC, lookupJoinList, h]
  · intro txt sel sels d e h
    simp [getTypeDKIM, dkimCandidates, lookupJoinList, h]
  · intro txt d e fuel h
    simp [getTypeSPF, h]
  · intro env sels fuel d recs hrec hne
    cases recs with
    | nil => exact absurd rfl hne
    | cons a l => simp [scanDomain, hrec, isErr, exceptList]

/-- Witness for soft_lookup_error_policy: with every TXT exchange failing,
DMARC resolves to "", SPF carries the error, and a domain with a live NS
answer still scans with an empty Result.Error. -/
theorem soft_lookup_error_policy_witness :
    getTypeDMARC errTxt "w7.example" = .ok "" ∧
    getTypeSPF errTxt 1 "w7.example" = .error "network unreachable" ∧
    (scanDomain envNsOnly [] 1 "w7.example").Error = "" :=
  ⟨soft_lookup_error_policy.2.1 errTxt "w7.example" "network unreachable" rfl,
   soft_lookup_error_policy.2.2.2.1 errTxt "w7.example" "network unreachable" 0 rfl,
   soft_lookup_error_policy.2.2.2.2 envNsOnly [] 1 "w7.example" ["ns1.example."]
     (by decide) (by decide)⟩

/-- C8: the DKIM candidate selectors are the caller-supplied ones followed
by the fixed built-in list; the names are queried strictly in that order;
and when the selectors queried before the first match all answered
without error and without a DKIM-prefixed record, the result is that
first match's record and nothing is queried after it. -/
theorem dkim_selector_order :
    knownDkimSelectors =
      ["x", "google", "selector1", "selector2", "k1", "mandrill",
       "everlytickey1", "everlytickey2", "dkim", "mxvault"]
    ∧ (∀ (txt : TxtOracle) (sels : List String) (d : String),
      getTypeDKIM txt sels d = (lookupTrace txt dkimPre (dkimCandidates sels d)).1)
    ∧ (∀ (txt : TxtOracle) (before after : List String) (c v : String),
      (∀ nm ∈ before, ∃ recs, txt nm = .ok recs ∧ findPrefixJoin dkimPre recs = none) →
      (∃ recs, txt c = .ok recs ∧ findPrefixJoin dkimPre recs = some v) →
      lookupTrace txt dkimPre (before ++ c :: after) = (.ok v, before ++ [c])) := by
  refine ⟨rfl, ?_, fun txt => lookupTrace_found txt dkimPre⟩
  intro txt sels d
  exact (lookupTrace_fst txt dkimPre (dkimCandidates sels d)).symm

/-- Witness for dkim_selector_order: with no record at selector x and a
DKIM record at selector google, exactly x then google are queried, in
order, and google's record is the result. -/
theorem dkim_selector_order_witness :
    lookupTrace dkimWitTxt dkimPre
        (["x._domainkey.d.example"] ++ "google._domainkey.d.example" :: dkimRestCands)
      = (.ok "v=DKIM1; k=rsa; p=TEST",
         ["x._domainkey.d.example"] ++ ["google._domainkey.d.example"]) :=
  dkim_selector_order.2.2 dkimWitTxt ["x._domainkey.d.example"] dkimRestCands
    "google._domainkey.d.example" "v=DKIM1; k=rsa; p=TEST"
    (by
      intro nm hnm
      simp only [List.mem_singleton] at hnm
      subst hnm
      exact ⟨["unrelated-txt"], by decide, by decide⟩)
    ⟨["v=DKIM1; k=rsa; p=TEST"], by decide, by decide⟩

/-- C9 counterexample: with cacheDuration = 0 the claim says every cache
get misses and every set is a no-op; in the code the Scan worker still
stores the fresh Result (with the hardcoded 3-minute TTL) and a get one
second later returns it. -/
theorem cache_duration_zero_counterexample :
    goCacheGet (scanCached (goCacheNew 0) 0 envNsOnly [] 1 "w9.example").2
        1000000000 "w9.example"
      = some (scanDomain envNsOnly [] 1 "w9.example") ∧
    (scanCached (goCacheNew 0) 0 envNsOnly [] 1 "w9.example").2.items ≠ [] := by decide

/-- C9 (amended): the cache is active for every configured duration,
including 0 — a cache miss stores the freshly resolved Result with the
hardcoded 3-minute TTL (the configured duration is never consulted by the
Set call), and any get within that TTL returns the stored Result instead
of triggering fresh resolution. -/
theorem cache_always_stores :
    (∀ (dur : Int) (env : DnsEnv) (sels : List String) (fuel : Nat)
        (d : String) (now : Int),
      scanCached (goCacheNew dur) now env sels fuel d =
        (scanDomain env sels fuel d,
         goCacheSet (goCacheNew dur) now d (scanDomain env sels fuel d) scanCacheTTL))
    ∧ (∀ (c : GoCache) (now : Int) (k : String) (v : Result) (t : Int),
      t ≤ now + scanCacheTTL →
      goCacheGet (goCacheSet c now k v scanCacheTTL) t k = some v) := by
  constructor
  · intro dur env sels fuel d now
    have hmiss : goCacheGet (goCacheNew dur) now d = none := by
      simp [goCacheGet, goCacheNew]
    simp [scanCached, hmiss]
  · intro c now k v t ht
    have hne : scanCacheTTL ≠ (0 : Int) := by norm_num [scanCacheTTL]
    have hpos : (0 : Int) < scanCacheTTL := by norm_num [scanCacheTTL]
    have hgt : ¬ (t > now + scanCacheTTL) := not_lt.mpr ht
    simp [goCacheSet, goCacheGet, hne, hpos, hgt, List.find?]

/-- Witness for cache_always_stores with duration 0: the set is not a
no-op and the get one nanosecond later hits. -/
theorem cache_always_stores_witness :
    scanCached (goCacheNew 0) 0 envNsOnly [] 1 "w9b.example" =
      (scanDomain envNsOnly [] 1 "w9b.example",
       goCacheSet (goCacheNew 0) 0 "w9b.example"
         (scanDomain envNsOnly [] 1 "w9b.example") scanCacheTTL) ∧
    goCacheGet (goCacheSet (goCacheNew 0) 0 "w9b.example"
        (invalidResult "w9b.example") scanCacheTTL) 1 "w9b.example"
      = some (invalidResult "w9b.example") :=
  ⟨cache_always_stores.1 0 envNsOnly [] 1 "w9b.example" 0,
   cache_always_stores.2 (goCacheNew 0) 0 "w9b.example"
     (invalidResult "w9b.example") 1 (by decide)⟩

/-- C10: when every zone token is an NS record or trims to a name without
a dot, the eligible-domain list is empty and ScanZone returns the
"no domains to scan" error rather than an empty result list. -/
theorem scanzone_no_eligible_domains (cache : String → Option Result) (env : DnsEnv)
    (sels : List String) (fuel : Nat) (toks : List ZoneTok)
    (h : ∀ tok ∈ toks, tok.rrtype = typeNS ∨
        goContains (goTrimChar tok.name '.') "." = false) :
    ScanZone cache env sels fuel toks = .error "no domains to scan" := by
  have hz : zoneEligible toks = [] := by
    rw [zoneEligible, List.filterMap_eq_nil_iff]
    intro tok htok
    rcases h tok htok with h1 | h1
    · simp [h1]
    · simp [h1]
  simp [ScanZone, Scan, hz]

/-- Witness for scanzone_no_eligible_domains: a zone holding only an NS
apex record and a dotless anchor yields the error. -/
theorem scanzone_no_eligible_domains_witness :
    ScanZone (fun _ => none) envNsOnly [] 1 zoneNoEligible =
      .error "no domains to scan" :=
  scanzone_no_eligible_domains (fun _ => none) envNsOnly [] 1 zoneNoEligible (by decide)

example : goFields "v=spf1 redirect=b.example -all" =
    ["v=spf1", "redirect=b.example", "-all"] := by decide

example : goContains "v=spf1 redirect=b.example -all" "redirect=" = true := by decide

example : goTrimPre "redirect=b.example" "redirect=" = "b.example" := by decide

example : findPrefixJoin dmarcPre ["other", "v=DMARC1; p=rej", "ect;"] =
    some "v=DMARC1; p=reject;" := by decide

end DSS
